import Mathlib

/-!
Verification development for the target-acquisition and coordinate-reconciliation
core of the kancolle-vice-admiral repository.

The Python sources are shallowly embedded:
* pure numeric code (alignment.py) is modelled over the rationals;
* the JSON-backed state store (state_store.py) is modelled as explicit state
  passing, with the wall clock passed in as an argument;
* code whose behaviour depends on external effects (file system, OpenCV calls,
  the Gemini inference service) is modelled as a function of an explicit
  environment record that enumerates the observable outcomes of those effects;
* Python exceptions are modelled with Except; a caught-and-absorbed exception
  appears as a match on the Except value.
-/

namespace KancolleVA

/-! ## alignment.py

Coordinates are Python floats; the properties of interest are exact algebraic
facts about division, clamping and offsetting, so the embedding uses ℚ.
-/

/-- Embeds alignment.device_pixels_to_css_pixels: divide both coordinates by the
device pixel ratio, after normalising a nonpositive ratio to 1.0. -/
def device_pixels_to_css_pixels (x_px y_px device_pixel_ratio : ℚ) : ℚ × ℚ :=
  let r := if device_pixel_ratio ≤ 0 then 1 else device_pixel_ratio
  (x_px / r, y_px / r)

/-- Embeds alignment.canvas_point_to_viewport: normalise the ratio, convert the
canvas point from device pixels to CSS pixels, clamp into the element box size,
and offset by the element box top-left corner.  The two canvas image size
arguments are accepted exactly as in the source signature. -/
def canvas_point_to_viewport
    (canvas_point_x canvas_point_y
     canvas_image_width_px canvas_image_height_px
     element_bbox_x_css element_bbox_y_css
     element_bbox_width_css element_bbox_height_css
     device_pixel_ratio : ℚ) : ℚ × ℚ :=
  let r := if device_pixel_ratio ≤ 0 then 1 else device_pixel_ratio
  let canvas_x_css := canvas_point_x / r
  let canvas_y_css := canvas_point_y / r
  (element_bbox_x_css + min (max canvas_x_css 0) element_bbox_width_css,
   element_bbox_y_css + min (max canvas_y_css 0) element_bbox_height_css)

/-! ## state_store.py -/

/-- One record of the per-screen target list, as written by upsert_target. -/
structure TargetRecord where
  name : String
  center_canvas : ℚ × ℚ
  radius : ℚ
  last_seen : Nat
deriving DecidableEq, Repr

/-- The in-memory mapping of StateStore, seen through the accesses the code
performs: data.get(screen_id, \x7b\x7d).get("targets", []). -/
abbrev StoreData := String → List TargetRecord

/-- The empty mapping, as set by load on a missing or unreadable file. -/
def emptyData : StoreData := fun _ => []

/-- The in-place replace-or-append loop of StateStore.upsert_target: replace
the first record whose name matches the new entry, keeping its position, or
append the entry at the end when no record matches. -/
def upsertList (entry : TargetRecord) : List TargetRecord → List TargetRecord
  | [] => [entry]
  | t :: ts => if t.name == entry.name then entry :: ts else t :: upsertList entry ts

/-- Embeds StateStore.upsert_target on the in-memory mapping.  The wall clock
read time.time() is passed explicitly as now; the Python default radius=16.0 is
passed explicitly by callers. -/
def StateStore.upsert_target (data : StoreData) (screen_id name : String)
    (cx cy radius : ℚ) (now : Nat) : StoreData :=
  let entry : TargetRecord := ⟨name, (cx, cy), radius, now⟩
  fun k => if k = screen_id then upsertList entry (data screen_id) else data k

/-- Stable insertion of a record into a list already sorted by descending
last_seen; a tie keeps the existing record first. -/
def insertDesc (t : TargetRecord) : List TargetRecord → List TargetRecord
  | [] => [t]
  | u :: us => if u.last_seen ≤ t.last_seen then t :: u :: us else u :: insertDesc t us

/-- The stable descending sort by last_seen performed by StateStore.find_target
via sorted(targets, key=last_seen, reverse=True).  Python sorted is stable, so
its output is the unique stable descending arrangement, which this structural
insertion sort computes. -/
def sortByLastSeenDesc : List TargetRecord → List TargetRecord
  | [] => []
  | t :: ts => insertDesc t (sortByLastSeenDesc ts)

/-- Embeds StateStore.find_target: among the records of the screen, sorted by
descending last_seen, return the first whose name matches. -/
def StateStore.find_target (data : StoreData) (screen_id name : String) :
    Option TargetRecord :=
  (sortByLastSeenDesc (data screen_id)).find? (fun t => t.name == name)

/-- Observable outcomes of the backing file accessed by StateStore.load:
missing, present but unreadable, present but not valid JSON, or parsed data. -/
inductive FileState where
  | absent
  | unreadable
  | corrupt
  | good (d : StoreData)

/-- The mutable fields of StateStore touched by load. -/
structure SS where
  data : StoreData
  loaded : Bool

/-- Embeds StateStore.load: return unchanged when already loaded; otherwise
read and parse the backing file, falling back to the empty mapping on a missing
file or on any read or parse failure, and mark the store loaded. -/
def StateStore.load (fs : FileState) (s : SS) : SS :=
  if s.loaded then s
  else
    match fs with
    | FileState.absent => ⟨emptyData, true⟩
    | FileState.unreadable => ⟨emptyData, true⟩
    | FileState.corrupt => ⟨emptyData, true⟩
    | FileState.good d => ⟨d, true⟩

/-! ## image_recognition.py — template matcher -/

/-- Observable outcomes of the external effects inside find_button_coordinates:
whether the template file exists, whether cv2.imread decodes it, and the result
of the cvtColor / matchTemplate / minMaxLoc pipeline — none when one of those
OpenCV calls raises, otherwise the maximum score (a Python float, modelled in
ℚ) with its location, plus the grayscale template dimensions. -/
structure TemplateMatchEnv where
  template_file_found : Bool
  template_decodes : Bool
  match_result : Option (ℚ × Nat × Nat)
  template_width : Nat
  template_height : Nat

/-- Internal marker for an exception raised by an OpenCV call. -/
inductive CVError where
  | opError
deriving DecidableEq

/-- The body of find_button_coordinates before its surrounding try/except:
missing or undecodable template returns none; a raising OpenCV call is an
error; otherwise compare the maximum score against the fixed threshold 0.8
(4/5 in ℚ) and, on success, return the top-left of the best match offset by
half the template dimensions with Nat floor division. -/
def find_button_body (env : TemplateMatchEnv) : Except CVError (Option (Nat × Nat)) :=
  if env.template_file_found = false then Except.ok none
  else if env.template_decodes = false then Except.ok none
  else
    match env.match_result with
    | none => Except.error CVError.opError
    | some (max_val, max_loc_x, max_loc_y) =>
      if (4 : ℚ) / 5 ≤ max_val then
        Except.ok (some (max_loc_x + env.template_width / 2,
                         max_loc_y + env.template_height / 2))
      else Except.ok none

/-- Embeds find_button_coordinates: the body wrapped in the try/except that
turns any raised exception into None. -/
def find_button_coordinates (env : TemplateMatchEnv) : Option (Nat × Nat) :=
  match find_button_body env with
  | Except.ok r => r
  | Except.error _ => none

/-! ## image_recognition.py — detection data and find_label_center -/

/-- Models str.lower as applied by find_label_center.  Lean String.toLower is
definitionally String.mapAux, which the kernel cannot evaluate; mapping
Char.toLower over the character list is extensionally the same function. -/
def pyLower (s : String) : String := String.mk (s.data.map Char.toLower)

/-- The xywh field of a box entry as consumed by find_label_center:
missing (b.get("xywh", [0,0,0,0]) yields the default [0,0,0,0]),
present but malformed (unpacking or int coercion raises, caught by the
enclosing try), or four integers. -/
inductive XYWH where
  | missing
  | malformed
  | intact (x y w h : Int)
deriving DecidableEq, Repr

/-- A centers entry: a label (str() of the raw label, "" when absent) and the
cx and cy fields, none when the field is missing or int() on it raises. -/
structure CenterEntry where
  label : String
  cx : Option Int
  cy : Option Int
deriving DecidableEq, Repr

/-- A boxes entry: a label and its xywh field. -/
structure BoxEntry where
  label : String
  xywh : XYWH
deriving DecidableEq, Repr

/-- A polygons entry; find_label_center never reads polygons, so only the
label is modelled. -/
structure PolyEntry where
  label : String
deriving DecidableEq, Repr

/-- The normalised detection dictionary with its three parallel lists. -/
structure Detection where
  boxes : List BoxEntry
  centers : List CenterEntry
  polygons : List PolyEntry
deriving DecidableEq, Repr

/-- The empty detection \x7bboxes: [], centers: [], polygons: []\x7d. -/
def emptyDetection : Detection := ⟨[], [], []⟩

/-- The first loop of find_label_center over detection.centers: on a matching
lowercased label, return (int(cx), int(cy)); when that coercion raises, the
except clause continues with the next entry. -/
def find_label_center_centers (labels_norm : List String) :
    List CenterEntry → Option (Int × Int)
  | [] => none
  | c :: rest =>
    if labels_norm.contains (pyLower c.label) then
      match c.cx, c.cy with
      | some a, some b => some (a, b)
      | _, _ => find_label_center_centers labels_norm rest
    else find_label_center_centers labels_norm rest

/-- The center a box entry yields inside the second loop:
a missing xywh unpacks the default [0, 0, 0, 0] and yields (0, 0); a malformed
xywh raises and yields nothing; four integers yield
(x + w // 2, y + h // 2) with Python floor division, Int.fdiv here. -/
def box_center : XYWH → Option (Int × Int)
  | XYWH.missing => some (0, 0)
  | XYWH.malformed => none
  | XYWH.intact x y w h => some (x + Int.fdiv w 2, y + Int.fdiv h 2)

/-- The second loop of find_label_center over detection.boxes. -/
def find_label_center_boxes (labels_norm : List String) :
    List BoxEntry → Option (Int × Int)
  | [] => none
  | b :: rest =>
    if labels_norm.contains (pyLower b.label) then
      match box_center b.xywh with
      | some p => some p
      | none => find_label_center_boxes labels_norm rest
    else find_label_center_boxes labels_norm rest

/-- Embeds find_label_center: lowercase the aliases, prefer the centers loop,
fall back to the boxes loop, otherwise None. -/
def find_label_center (detection : Detection) (label_aliases : List String) :
    Option (Int × Int) :=
  let labels_norm := label_aliases.map pyLower
  match find_label_center_centers labels_norm detection.centers with
  | some p => some p
  | none => find_label_center_boxes labels_norm detection.boxes

/-! ### A well-formed view of detections, and the resolver policy as the spec
words it, for the refinement claim about find_label_center. -/

/-- A centers entry whose coordinate fields are present integers. -/
structure WCenter where
  label : String
  cx : Int
  cy : Int

/-- A boxes entry whose xywh field holds four integers. -/
structure WBox where
  label : String
  x : Int
  y : Int
  w : Int
  h : Int

/-- A detection all of whose entries are well formed. -/
structure WDetection where
  centers : List WCenter
  boxes : List WBox

/-- Injects a well-formed detection into the detection type consumed by
find_label_center. -/
def WDetection.toDetection (d : WDetection) : Detection where
  boxes := d.boxes.map (fun b => ⟨b.label, XYWH.intact b.x b.y b.w b.h⟩)
  centers := d.centers.map (fun c => ⟨c.label, some c.cx, some c.cy⟩)
  polygons := []

/-- The Target Resolver selection policy as the specification words it:
scan centers in response order and return the first entry whose label matches
an alias case-insensitively; if none, scan boxes in response order and return
the first match with center (x + w // 2, y + h // 2) in floor division;
otherwise report not found. -/
def find_label_center_spec (d : WDetection) (label_aliases : List String) :
    Option (Int × Int) :=
  let aliasMatch := fun (lbl : String) => (label_aliases.map pyLower).contains (pyLower lbl)
  match d.centers.find? (fun c => aliasMatch c.label) with
  | some c => some (c.cx, c.cy)
  | none =>
    match d.boxes.find? (fun b => aliasMatch b.label) with
    | some b => some (b.x + Int.fdiv b.w 2, b.y + Int.fdiv b.h 2)
    | none => none

/-! ## image_recognition.py — detect_targets_with_gemini -/

/-- The Python exception classes that detect_targets_with_gemini can let
escape. -/
inductive PyError where
  | runtimeError
  | valueError
  | typeError
deriving DecidableEq, Repr

/-- The image argument as discriminated by the isinstance chain of
_ensure_image: an ndarray, bytes that cv2.imdecode does or does not decode, a
path that cv2.imread does or does not read, or an unsupported type. -/
inductive ImageInput where
  | ndarray
  | decodableBytes
  | undecodableBytes
  | readablePath
  | unreadablePath
  | unsupported
deriving DecidableEq, Repr

/-- Embeds _ensure_image: ndarray passes through; undecodable bytes and
unreadable paths raise ValueError; any other type raises TypeError. -/
def ensure_image : ImageInput → Except PyError Unit
  | ImageInput.ndarray => Except.ok ()
  | ImageInput.decodableBytes => Except.ok ()
  | ImageInput.undecodableBytes => Except.error PyError.valueError
  | ImageInput.readablePath => Except.ok ()
  | ImageInput.unreadablePath => Except.error PyError.valueError
  | ImageInput.unsupported => Except.error PyError.typeError

/-- Outcome of the two genai.GenerativeModel constructions: the configured
model constructs, or only the hard-coded fallback constructs, or both raise
(the second raise escapes the except clause around the first). -/
inductive ModelCtor where
  | primaryOk
  | fallbackOk
  | bothRaise
deriving DecidableEq, Repr

/-- The raw parsed JSON response before the setdefault normalisation: each of
the three keys may be absent. -/
structure RawDetection where
  boxes : Option (List BoxEntry)
  centers : Option (List CenterEntry)
  polygons : Option (List PolyEntry)

/-- Outcome of the guarded service call: generate_content or response.text
raises, or json.loads raises on the response text, or parsed data. -/
inductive ServiceOutcome where
  | transportError
  | badJson
  | parsed (raw : RawDetection)

/-- Observable outcomes of the external effects of detect_targets_with_gemini,
in the order the code encounters them. -/
structure GeminiEnv where
  genai_installed : Bool
  api_key_present : Bool
  image : ImageInput
  encode_ok : Bool
  model_ctor : ModelCtor
  outcome : ServiceOutcome

/-- The setdefault normalisation of the parsed response: each absent key
becomes the empty list. -/
def normalize_detection (raw : RawDetection) : Detection where
  boxes := raw.boxes.getD []
  centers := raw.centers.getD []
  polygons := raw.polygons.getD []

/-- Embeds detect_targets_with_gemini.  _configure_gemini_if_needed (missing
library or API key raises RuntimeError), _ensure_image and the PNG encoding
(ValueError on failure) and the model construction run before the try block,
so their exceptions escape; the try block around the service call and the JSON
parse turns any exception there into the empty detection. -/
def detect_targets_with_gemini (env : GeminiEnv) : Except PyError Detection :=
  if env.genai_installed = false then Except.error PyError.runtimeError
  else if env.api_key_present = false then Except.error PyError.runtimeError
  else
    match ensure_image env.image with
    | Except.error e => Except.error e
    | Except.ok _ =>
      if env.encode_ok = false then Except.error PyError.valueError
      else
        match env.model_ctor with
        | ModelCtor.bothRaise => Except.error PyError.valueError
        | _ =>
          match env.outcome with
          | ServiceOutcome.transportError => Except.ok emptyDetection
          | ServiceOutcome.badJson => Except.ok emptyDetection
          | ServiceOutcome.parsed raw => Except.ok (normalize_detection raw)

/-! ## Helper counting and position functions for the state store claims -/

/-- The number of records with a given name in a target list. -/
def countNamed (name : String) (l : List TargetRecord) : Nat :=
  l.countP (fun t => t.name == name)

/-- The position of the first record with a given name in a target list. -/
def indexOfNamed (name : String) : List TargetRecord → Option Nat
  | [] => none
  | t :: ts => if t.name == name then some 0 else (indexOfNamed name ts).map (fun i => i + 1)

/-! ## Theorems -/

/-- Adding an offset to a value clamped into [0, w] stays within [o, o + w]. -/
theorem clamp_add_bounds (o c w : ℚ) (hw : 0 ≤ w) :
    o ≤ o + min (max c 0) w ∧ o + min (max c 0) w ≤ o + w :=
  ⟨le_add_of_nonneg_right (le_min (le_max_right _ _) hw),
   add_le_add_left (min_le_right _ _) o⟩

/-- C4: for a positive ratio, device_pixels_to_css_pixels divides both
coordinates by the ratio; for a nonpositive ratio the result is the one the
function gives for ratio 1.0, so the invalid ratio is normalised, not
propagated. -/
theorem device_pixels_to_css_pixels_spec (x y r : ℚ) :
    (0 < r → device_pixels_to_css_pixels x y r = (x / r, y / r)) ∧
    (r ≤ 0 → device_pixels_to_css_pixels x y r = device_pixels_to_css_pixels x y 1) := by
  constructor
  · intro hr
    have hne : ¬ r ≤ 0 := not_le.mpr hr
    simp [device_pixels_to_css_pixels, hne]
  · intro hr
    norm_num [device_pixels_to_css_pixels, hr]

/-- Witness for C4 at x = 6, y = 4 with ratios 2 and -1. -/
theorem device_pixels_to_css_pixels_spec_witness :
    (0 : ℚ) < 2 ∧ (-1 : ℚ) ≤ 0 ∧
    device_pixels_to_css_pixels 6 4 2 = (6 / 2, 4 / 2) ∧
    device_pixels_to_css_pixels 6 4 (-1) = device_pixels_to_css_pixels 6 4 1 :=
  ⟨by norm_num, by norm_num,
   (device_pixels_to_css_pixels_spec 6 4 2).1 (by norm_num),
   (device_pixels_to_css_pixels_spec 6 4 (-1)).2 (by norm_num)⟩

/-- C5: for any canvas point, any declared canvas size, any ratio and any
element box of nonnegative width and height, the point returned by
canvas_point_to_viewport lies inside the box in both coordinates. -/
theorem canvas_point_to_viewport_clamped
    (px py cw ch ebx eby ebw ebh r : ℚ) (hw : 0 ≤ ebw) (hh : 0 ≤ ebh) :
    ebx ≤ (canvas_point_to_viewport px py cw ch ebx eby ebw ebh r).1 ∧
    (canvas_point_to_viewport px py cw ch ebx eby ebw ebh r).1 ≤ ebx + ebw ∧
    eby ≤ (canvas_point_to_viewport px py cw ch ebx eby ebw ebh r).2 ∧
    (canvas_point_to_viewport px py cw ch ebx eby ebw ebh r).2 ≤ eby + ebh := by
  have hx := clamp_add_bounds ebx (px / (if r ≤ 0 then 1 else r)) ebw hw
  have hy := clamp_add_bounds eby (py / (if r ≤ 0 then 1 else r)) ebh hh
  exact ⟨hx.1, hx.2, hy.1, hy.2⟩

/-- Witness for C5: a point far outside a 30 by 40 box at (10, 20) is clamped
into the box. -/
theorem canvas_point_to_viewport_clamped_witness :
    (0 : ℚ) ≤ 30 ∧ (0 : ℚ) ≤ 40 ∧
    (10 ≤ (canvas_point_to_viewport 1000 (-5) 640 324 10 20 30 40 2).1 ∧
     (canvas_point_to_viewport 1000 (-5) 640 324 10 20 30 40 2).1 ≤ 10 + 30 ∧
     20 ≤ (canvas_point_to_viewport 1000 (-5) 640 324 10 20 30 40 2).2 ∧
     (canvas_point_to_viewport 1000 (-5) 640 324 10 20 30 40 2).2 ≤ 20 + 40) :=
  ⟨by norm_num, by norm_num,
   canvas_point_to_viewport_clamped 1000 (-5) 640 324 10 20 30 40 2
     (by norm_num) (by norm_num)⟩

/-- C10: the result of canvas_point_to_viewport does not depend on the two
declared canvas image size arguments. -/
theorem canvas_point_to_viewport_ignores_canvas_size
    (px py cw ch cw2 ch2 ebx eby ebw ebh r : ℚ) :
    canvas_point_to_viewport px py cw ch ebx eby ebw ebh r =
      canvas_point_to_viewport px py cw2 ch2 ebx eby ebw ebh r := rfl

/-- C9: a second load, under any later file state, leaves the store exactly as
the first load left it; and a load of an unreadable or corrupt backing file
resets the in-memory mapping to empty instead of raising. -/
theorem load_idempotent_and_absorbs_corruption (fs fs2 : FileState) (s : SS) :
    StateStore.load fs2 (StateStore.load fs s) = StateStore.load fs s ∧
    (s.loaded = false →
      (StateStore.load FileState.unreadable s).data = emptyData ∧
      (StateStore.load FileState.corrupt s).data = emptyData) := by
  constructor
  · by_cases h : s.loaded
    · simp [StateStore.load, h]
    · rcases fs with _ | _ | _ | d <;>
        simp [StateStore.load, h]
  · intro h
    simp [StateStore.load, h]

/-- Witness for C9 on a fresh store and a corrupt then absent file. -/
theorem load_idempotent_and_absorbs_corruption_witness :
    (⟨emptyData, false⟩ : SS).loaded = false ∧
    StateStore.load FileState.absent (StateStore.load FileState.corrupt ⟨emptyData, false⟩) =
      StateStore.load FileState.corrupt ⟨emptyData, false⟩ ∧
    ((StateStore.load FileState.unreadable (⟨emptyData, false⟩ : SS)).data = emptyData ∧
     (StateStore.load FileState.corrupt (⟨emptyData, false⟩ : SS)).data = emptyData) :=
  ⟨rfl,
   (load_idempotent_and_absorbs_corruption FileState.corrupt FileState.absent
     ⟨emptyData, false⟩).1,
   (load_idempotent_and_absorbs_corruption FileState.corrupt FileState.absent
     ⟨emptyData, false⟩).2 rfl⟩

/-- C6: find_button_coordinates returns None exactly when the template file is
missing, the template does not decode, an OpenCV call raises, or the best
score is below the 0.8 threshold; and every exception of the body is absorbed
into None. -/
theorem find_button_coordinates_none_iff (env : TemplateMatchEnv) :
    (find_button_coordinates env = none ↔
      env.template_file_found = false ∨ env.template_decodes = false ∨
      env.match_result = none ∨
      ∃ v lx ly, env.match_result = some (v, lx, ly) ∧ v < 4 / 5) ∧
    ∀ e, find_button_body env = Except.error e → find_button_coordinates env = none := by
  rcases env with ⟨tf, td, mr, tw, th⟩
  cases tf <;> cases td <;> rcases mr with _ | ⟨v, lx, ly⟩ <;>
    try simp [find_button_coordinates, find_button_body]
  by_cases hv : (4 : ℚ) / 5 ≤ v
  · constructor
    · simp [find_button_coordinates, find_button_body, hv, not_lt]
    · intro e he
      simp [find_button_body, hv] at he
  · constructor
    · simp [find_button_coordinates, find_button_body, hv]
      exact not_le.mp hv
    · intro e he
      simp [find_button_body, hv] at he

/-- Witness for C6: a missing template file yields None. -/
theorem find_button_coordinates_none_iff_witness :
    find_button_coordinates ⟨false, true, none, 90, 15⟩ = none :=
  ((find_button_coordinates_none_iff ⟨false, true, none, 90, 15⟩).1).mpr (Or.inl rfl)

/-- C7: when the template is found and decodes and the best score reaches the
threshold, the returned center is the best-match top-left offset by half the
template dimensions, in Nat floor division. -/
theorem find_button_coordinates_center_formula (env : TemplateMatchEnv)
    (h1 : env.template_file_found = true) (h2 : env.template_decodes = true)
    (v : ℚ) (lx ly : Nat) (hm : env.match_result = some (v, lx, ly))
    (hv : (4 : ℚ) / 5 ≤ v) :
    find_button_coordinates env =
      some (lx + env.template_width / 2, ly + env.template_height / 2) := by
  simp [find_button_coordinates, find_button_body, h1, h2, hm, hv]

/-- Witness for C7 at score 9/10, best match at (275, 170), template 90 by 15. -/
theorem find_button_coordinates_center_formula_witness :
    (⟨true, true, some (9 / 10, 275, 170), 90, 15⟩ : TemplateMatchEnv).template_file_found
      = true ∧
    (9 : ℚ) / 10 ≥ 4 / 5 ∧
    find_button_coordinates ⟨true, true, some (9 / 10, 275, 170), 90, 15⟩ =
      some (275 + 90 / 2, 170 + 15 / 2) :=
  ⟨rfl, by norm_num,
   find_button_coordinates_center_formula ⟨true, true, some (9 / 10, 275, 170), 90, 15⟩
     rfl rfl (9 / 10) 275 170 rfl (by norm_num)⟩

/-- C1 counterexample: with the client library installed and an API key
configured, undecodable image bytes make detect_targets_with_gemini raise
ValueError from the image decoding step, which runs before the try block —
the call does not return the empty detection, it raises. -/
theorem detect_targets_raises_on_undecodable_image :
    detect_targets_with_gemini
      ⟨true, true, ImageInput.undecodableBytes, true, ModelCtor.primaryOk,
       ServiceOutcome.parsed ⟨none, none, none⟩⟩ = Except.error PyError.valueError ∧
    ∀ d : Detection,
      detect_targets_with_gemini
        ⟨true, true, ImageInput.undecodableBytes, true, ModelCtor.primaryOk,
         ServiceOutcome.parsed ⟨none, none, none⟩⟩ ≠ Except.ok d := by
  refine ⟨rfl, ?_⟩
  intro d h
  simp [detect_targets_with_gemini, ensure_image] at h

/-- C1 amended: once the client library and API key are configured, the image
decodes and encodes, and a model object constructs, detect_targets_with_gemini
never raises, and a transport or JSON parse failure of the service call yields
the empty detection. -/
theorem detect_targets_absorbs_service_errors (env : GeminiEnv)
    (h1 : env.genai_installed = true) (h2 : env.api_key_present = true)
    (h3 : ensure_image env.image = Except.ok ()) (h4 : env.encode_ok = true)
    (h5 : env.model_ctor ≠ ModelCtor.bothRaise) :
    (∃ d, detect_targets_with_gemini env = Except.ok d) ∧
    ((env.outcome = ServiceOutcome.transportError ∨ env.outcome = ServiceOutcome.badJson) →
      detect_targets_with_gemini env = Except.ok emptyDetection) := by
  have key : ∀ oc2 : ServiceOutcome, env.outcome = oc2 →
      detect_targets_with_gemini env =
        (match oc2 with
         | ServiceOutcome.transportError => Except.ok emptyDetection
         | ServiceOutcome.badJson => Except.ok emptyDetection
         | ServiceOutcome.parsed raw => Except.ok (normalize_detection raw)) := by
    intro oc2 hoc
    cases mcase : env.model_ctor with
    | bothRaise => exact absurd mcase h5
    | primaryOk =>
      cases oc2 <;> simp [detect_targets_with_gemini, h1, h2, h3, h4, mcase, hoc]
    | fallbackOk =>
      cases oc2 <;> simp [detect_targets_with_gemini, h1, h2, h3, h4, mcase, hoc]
  constructor
  · cases hoc : env.outcome with
    | transportError => exact ⟨emptyDetection, key _ hoc⟩
    | badJson => exact ⟨emptyDetection, key _ hoc⟩
    | parsed raw => exact ⟨normalize_detection raw, key _ hoc⟩
  · rintro (hoc | hoc)
    · exact key _ hoc
    · exact key _ hoc

/-- Witness for the amended C1 on an ndarray input and a transport error. -/
theorem detect_targets_absorbs_service_errors_witness :
    ensure_image ImageInput.ndarray = Except.ok () ∧
    (∃ d, detect_targets_with_gemini
        ⟨true, true, ImageInput.ndarray, true, ModelCtor.primaryOk,
         ServiceOutcome.transportError⟩ = Except.ok d) ∧
    detect_targets_with_gemini
        ⟨true, true, ImageInput.ndarray, true, ModelCtor.primaryOk,
         ServiceOutcome.transportError⟩ = Except.ok emptyDetection := by
  refine ⟨rfl, ?_, ?_⟩
  · exact (detect_targets_absorbs_service_errors
      ⟨true, true, ImageInput.ndarray, true, ModelCtor.primaryOk,
       ServiceOutcome.transportError⟩ rfl rfl rfl rfl (by decide)).1
  · exact (detect_targets_absorbs_service_errors
      ⟨true, true, ImageInput.ndarray, true, ModelCtor.primaryOk,
       ServiceOutcome.transportError⟩ rfl rfl rfl rfl (by decide)).2 (Or.inl rfl)

/-- C3 counterexample: a boxes entry with a matching label whose xywh key is
missing is not skipped — b.get of the missing key yields the default
[0, 0, 0, 0] and find_label_center returns its center (0, 0). -/
theorem find_label_center_missing_xywh_not_skipped :
    find_label_center ⟨[⟨"start", XYWH.missing⟩], [], []⟩ ["start"] = some (0, 0) ∧
    find_label_center ⟨[⟨"start", XYWH.missing⟩], [], []⟩ ["start"] ≠ none := by
  constructor
  · decide
  · decide

/-- A centers entry whose cx or cy is missing or fails int coercion is passed
over by the centers loop. -/
theorem find_label_center_centers_skip (ln : List String) (c : CenterEntry)
    (cs : List CenterEntry) (hc : c.cx = none ∨ c.cy = none) :
    find_label_center_centers ln (c :: cs) = find_label_center_centers ln cs := by
  by_cases hm : ln.contains (pyLower c.label)
  · rcases hc with h | h
    · simp [find_label_center_centers, hm, h]
    · rcases hx : c.cx with _ | a <;> simp [find_label_center_centers, hm, h, hx]
  · unfold find_label_center_centers
    rw [if_neg hm]
    cases cs <;> rfl

/-- A boxes entry whose xywh is present but malformed is passed over by the
boxes loop. -/
theorem find_label_center_boxes_skip (ln : List String) (b : BoxEntry)
    (bs : List BoxEntry) (hb : b.xywh = XYWH.malformed) :
    find_label_center_boxes ln (b :: bs) = find_label_center_boxes ln bs := by
  by_cases hm : ln.contains (pyLower b.label)
  · simp [find_label_center_boxes, hm, hb, box_center]
  · unfold find_label_center_boxes
    rw [if_neg hm]
    cases bs <;> rfl

/-- C3 amended: a centers entry with a missing or non-coercible coordinate and
a boxes entry with a present but malformed xywh are skipped, and resolution
continues with the remaining candidates; a boxes entry with a missing xywh
key, however, yields the default center (0, 0) instead of being skipped. -/
theorem find_label_center_skips_noncoercible (label_aliases : List String)
    (c : CenterEntry) (cs : List CenterEntry)
    (b : BoxEntry) (bs : List BoxEntry) (ps : List PolyEntry)
    (hc : c.cx = none ∨ c.cy = none) (hb : b.xywh = XYWH.malformed) :
    find_label_center ⟨b :: bs, c :: cs, ps⟩ label_aliases =
      find_label_center ⟨bs, cs, ps⟩ label_aliases := by
  simp only [find_label_center]
  rw [find_label_center_centers_skip _ c cs hc, find_label_center_boxes_skip _ b bs hb]

/-- Witness for the amended C3: a non-coercible center and a malformed box,
both labelled "start", are skipped and the intact box behind them wins. -/
theorem find_label_center_skips_noncoercible_witness :
    ((⟨"start", none, some 5⟩ : CenterEntry).cx = none ∨
     (⟨"start", none, some 5⟩ : CenterEntry).cy = none) ∧
    (⟨"start", XYWH.malformed⟩ : BoxEntry).xywh = XYWH.malformed ∧
    find_label_center
        ⟨[⟨"start", XYWH.malformed⟩, ⟨"start", XYWH.intact 10 20 4 6⟩],
         [⟨"start", none, some 5⟩], []⟩ ["start"] =
      find_label_center ⟨[⟨"start", XYWH.intact 10 20 4 6⟩], [], []⟩ ["start"] :=
  ⟨Or.inl rfl, rfl,
   find_label_center_skips_noncoercible ["start"] ⟨"start", none, some 5⟩ []
     ⟨"start", XYWH.malformed⟩ [⟨"start", XYWH.intact 10 20 4 6⟩] []
     (Or.inl rfl) rfl⟩

/-- The centers loop on well-formed entries computes the first label match. -/
theorem find_label_center_centers_toDetection (ln : List String) (cs : List WCenter) :
    find_label_center_centers ln (cs.map (fun c => ⟨c.label, some c.cx, some c.cy⟩)) =
      (cs.find? (fun c => ln.contains (pyLower c.label))).map (fun c => (c.cx, c.cy)) := by
  induction cs with
  | nil => rfl
  | cons c rest ih =>
    simp only [List.map_cons, find_label_center_centers, List.find?_cons]
    cases hm : ln.contains (pyLower c.label) <;> simp [hm, ih]

/-- The boxes loop on well-formed entries computes the first label match with
its floor-divided midpoint. -/
theorem find_label_center_boxes_toDetection (ln : List String) (bs : List WBox) :
    find_label_center_boxes ln (bs.map (fun b => ⟨b.label, XYWH.intact b.x b.y b.w b.h⟩)) =
      (bs.find? (fun b => ln.contains (pyLower b.label))).map
        (fun b => (b.x + Int.fdiv b.w 2, b.y + Int.fdiv b.h 2)) := by
  induction bs with
  | nil => rfl
  | cons b rest ih =>
    simp only [List.map_cons, find_label_center_boxes, List.find?_cons]
    cases hm : ln.contains (pyLower b.label) <;> simp [hm, ih, box_center]

/-- C2: on a detection all of whose entries are well formed, find_label_center
computes exactly the resolver policy the specification states: the first
center whose lowercased label equals a lowercased alias, in response order;
only if no center matches, the first matching box with center
(x + w // 2, y + h // 2) in floor division; otherwise None.  A center
therefore always beats a box carrying the same label. -/
theorem find_label_center_refines_spec (d : WDetection) (label_aliases : List String) :
    find_label_center d.toDetection label_aliases = find_label_center_spec d label_aliases := by
  simp only [find_label_center, find_label_center_spec, WDetection.toDetection,
    find_label_center_centers_toDetection, find_label_center_boxes_toDetection]
  cases d.centers.find? (fun c => (label_aliases.map pyLower).contains (pyLower c.label)) with
  | some c => rfl
  | none =>
    cases d.boxes.find? (fun b => (label_aliases.map pyLower).contains (pyLower b.label)) with
    | some b => rfl
    | none => rfl

/-- The upserted entry is a member of the updated list. -/
theorem mem_upsertList (e : TargetRecord) (l : List TargetRecord) : e ∈ upsertList e l := by
  induction l with
  | nil => simp [upsertList]
  | cons t ts ih =>
    cases hn : t.name == e.name <;> simp [upsertList, hn, ih]

/-- Upserting into a list holding at most one record of that name leaves
exactly one record of that name. -/
theorem countNamed_upsertList (e : TargetRecord) (l : List TargetRecord)
    (h : countNamed e.name l ≤ 1) : countNamed e.name (upsertList e l) = 1 := by
  induction l with
  | nil => simp [upsertList, countNamed]
  | cons t ts ih =>
    rw [countNamed, List.countP_cons] at h
    cases hn : t.name == e.name
    · rw [hn] at h
      simp only [upsertList, hn, Bool.false_eq_true, if_false]
      rw [countNamed, List.countP_cons]
      simp only [hn, Bool.false_eq_true, if_false, Nat.add_zero]
      exact ih (by simpa using h)
    · rw [hn] at h
      simp only [if_true] at h
      have hts : ts.countP (fun t => t.name == e.name) = 0 := by omega
      simp only [upsertList, hn, if_true]
      rw [countNamed, List.countP_cons]
      simp [hts]

/-- When a record of the entry name exists, upserting replaces it in place and
the position of the first record of that name is unchanged. -/
theorem indexOfNamed_upsertList (e : TargetRecord) (l : List TargetRecord)
    (h : indexOfNamed e.name l ≠ none) :
    indexOfNamed e.name (upsertList e l) = indexOfNamed e.name l := by
  induction l with
  | nil => simp [indexOfNamed] at h
  | cons t ts ih =>
    cases hn : t.name == e.name
    · have h2 : indexOfNamed e.name ts ≠ none := by
        simp [indexOfNamed, hn] at h
        simpa using h
      simp [upsertList, indexOfNamed, hn, ih h2]
    · simp [upsertList, indexOfNamed, hn]

/-- A member with the looked-up name gives the name a position in the list. -/
theorem indexOfNamed_ne_none_of_mem (r : TargetRecord) (l : List TargetRecord)
    (hr : r ∈ l) (n : String) (hn : r.name = n) : indexOfNamed n l ≠ none := by
  induction l with
  | nil => cases hr
  | cons t ts ih =>
    cases hm : t.name == n
    · rcases List.mem_cons.mp hr with rfl | hmem
      · rw [hn] at hm
        simp at hm
      · simp [indexOfNamed, hm, ih hmem]
    · simp [indexOfNamed, hm]

/-- In a list with exactly one element satisfying a predicate, any two
members satisfying it are equal. -/
theorem eq_of_mem_countP_one {α : Type} (p : α → Bool) :
    ∀ l : List α, l.countP p = 1 → ∀ x ∈ l, p x = true → ∀ y ∈ l, p y = true → x = y := by
  intro l
  induction l with
  | nil => intro _ x hx; cases hx
  | cons a t ih =>
    intro hc x hx hpx y hy hpy
    rw [List.countP_cons] at hc
    cases hpa : p a
    · rw [hpa] at hc
      simp only [Bool.false_eq_true, if_false, Nat.add_zero] at hc
      rcases List.mem_cons.mp hx with rfl | hx2
      · rw [hpx] at hpa; cases hpa
      rcases List.mem_cons.mp hy with rfl | hy2
      · rw [hpy] at hpa; cases hpa
      exact ih hc x hx2 hpx y hy2 hpy
    · rw [hpa] at hc
      simp only [if_true] at hc
      have hzero : t.countP p = 0 := by omega
      have hnone : ∀ z ∈ t, ¬ p z = true := List.countP_eq_zero.mp hzero
      rcases List.mem_cons.mp hx with rfl | hx2
      · rcases List.mem_cons.mp hy with rfl | hy2
        · rfl
        · exact absurd hpy (hnone y hy2)
      · exact absurd hpx (hnone x hx2)

/-- find? over any permutation of a list with a unique satisfying element
returns that element. -/
theorem find?_eq_of_unique {α : Type} (p : α → Bool) (l l2 : List α) (x : α)
    (hperm : l2.Perm l) (hcount : l.countP p = 1) (hx : x ∈ l) (hpx : p x = true) :
    l2.find? p = some x := by
  have hx2 : x ∈ l2 := hperm.mem_iff.mpr hx
  have hc2 : l2.countP p = 1 := by rw [hperm.countP_eq p, hcount]
  cases hf : l2.find? p with
  | none =>
    rw [List.find?_eq_none] at hf
    exact absurd hpx (hf x hx2)
  | some y =>
    have hpy : p y = true := List.find?_some hf
    have hy : y ∈ l2 := List.mem_of_find?_eq_some hf
    rw [eq_of_mem_countP_one p l2 hc2 y hy hpy x hx2 hpx]

/-- Stable descending insertion permutes to consing. -/
theorem insertDesc_perm (t : TargetRecord) (l : List TargetRecord) :
    (insertDesc t l).Perm (t :: l) := by
  induction l with
  | nil => exact List.Perm.refl _
  | cons u us ih =>
    by_cases h : u.last_seen ≤ t.last_seen
    · simp only [insertDesc, if_pos h]
      exact List.Perm.refl _
    · simp only [insertDesc, if_neg h]
      exact (List.Perm.cons u ih).trans (List.Perm.swap t u us)

/-- The stable sort of find_target is a permutation of its input. -/
theorem sortByLastSeenDesc_perm (l : List TargetRecord) :
    (sortByLastSeenDesc l).Perm l := by
  induction l with
  | nil => exact List.Perm.refl _
  | cons t ts ih =>
    exact (insertDesc_perm t (sortByLastSeenDesc ts)).trans (List.Perm.cons t ih)

/-- C8: starting from a screen whose target list holds at most one record
named "start", upserting ("start", 10, 20) makes find_target return exactly
that record; a second upsert of ("start", 30, 40) leaves exactly one record
named "start", at the position the first upsert gave it, and find_target
returns the updated record. -/
theorem upsert_find_round_trip (data : StoreData) (sc : String) (t1 t2 : Nat)
    (h : countNamed "start" (data sc) ≤ 1) :
    StateStore.find_target (StateStore.upsert_target data sc "start" 10 20 16 t1) sc "start" =
      some ⟨"start", (10, 20), 16, t1⟩ ∧
    countNamed "start"
      (StateStore.upsert_target (StateStore.upsert_target data sc "start" 10 20 16 t1)
        sc "start" 30 40 16 t2 sc) = 1 ∧
    indexOfNamed "start"
      (StateStore.upsert_target (StateStore.upsert_target data sc "start" 10 20 16 t1)
        sc "start" 30 40 16 t2 sc) =
      indexOfNamed "start" (StateStore.upsert_target data sc "start" 10 20 16 t1 sc) ∧
    StateStore.find_target
      (StateStore.upsert_target (StateStore.upsert_target data sc "start" 10 20 16 t1)
        sc "start" 30 40 16 t2) sc "start" =
      some ⟨"start", (30, 40), 16, t2⟩ := by
  have hput1 : StateStore.upsert_target data sc "start" 10 20 16 t1 sc =
      upsertList ⟨"start", (10, 20), 16, t1⟩ (data sc) := by
    simp [StateStore.upsert_target]
  have hput2 : StateStore.upsert_target (StateStore.upsert_target data sc "start" 10 20 16 t1)
      sc "start" 30 40 16 t2 sc =
      upsertList ⟨"start", (30, 40), 16, t2⟩
        (upsertList ⟨"start", (10, 20), 16, t1⟩ (data sc)) := by
    simp [StateStore.upsert_target]
  have hc1 : countNamed "start" (upsertList ⟨"start", (10, 20), 16, t1⟩ (data sc)) = 1 :=
    countNamed_upsertList ⟨"start", (10, 20), 16, t1⟩ (data sc) h
  have hc2 : countNamed "start"
      (upsertList ⟨"start", (30, 40), 16, t2⟩
        (upsertList ⟨"start", (10, 20), 16, t1⟩ (data sc))) = 1 :=
    countNamed_upsertList ⟨"start", (30, 40), 16, t2⟩ _ (le_of_eq hc1)
  have hm1 : (⟨"start", (10, 20), 16, t1⟩ : TargetRecord) ∈
      upsertList ⟨"start", (10, 20), 16, t1⟩ (data sc) := mem_upsertList _ _
  have hm2 : (⟨"start", (30, 40), 16, t2⟩ : TargetRecord) ∈
      upsertList ⟨"start", (30, 40), 16, t2⟩
        (upsertList ⟨"start", (10, 20), 16, t1⟩ (data sc)) := mem_upsertList _ _
  refine ⟨?_, ?_, ?_, ?_⟩
  · unfold StateStore.find_target
    rw [hput1]
    exact find?_eq_of_unique _ _ _ _ (sortByLastSeenDesc_perm _) hc1 hm1 (by simp)
  · rw [hput2]
    exact hc2
  · rw [hput2, hput1]
    exact indexOfNamed_upsertList ⟨"start", (30, 40), 16, t2⟩ _
      (indexOfNamed_ne_none_of_mem ⟨"start", (10, 20), 16, t1⟩ _ hm1 "start" rfl)
  · unfold StateStore.find_target
    rw [hput2]
    exact find?_eq_of_unique _ _ _ _ (sortByLastSeenDesc_perm _) hc2 hm2 (by simp)

/-- Witness for C8 on the empty store, screen "home", times 100 then 200. -/
theorem upsert_find_round_trip_witness :
    countNamed "start" (emptyData "home") ≤ 1 ∧
    (StateStore.find_target (StateStore.upsert_target emptyData "home" "start" 10 20 16 100)
        "home" "start" = some ⟨"start", (10, 20), 16, 100⟩ ∧
     countNamed "start"
       (StateStore.upsert_target (StateStore.upsert_target emptyData "home" "start" 10 20 16 100)
         "home" "start" 30 40 16 200 "home") = 1 ∧
     indexOfNamed "start"
       (StateStore.upsert_target (StateStore.upsert_target emptyData "home" "start" 10 20 16 100)
         "home" "start" 30 40 16 200 "home") =
       indexOfNamed "start" (StateStore.upsert_target emptyData "home" "start" 10 20 16 100 "home") ∧
     StateStore.find_target
       (StateStore.upsert_target (StateStore.upsert_target emptyData "home" "start" 10 20 16 100)
         "home" "start" 30 40 16 200) "home" "start" =
       some ⟨"start", (30, 40), 16, 200⟩) :=
  ⟨Nat.zero_le 1, upsert_find_round_trip emptyData "home" 100 200 (Nat.zero_le 1)⟩

end KancolleVA
